import Mathlib

/-!
# Verification of the fischertermine enrichment pipeline

Shallow embedding of the Go scraper/enrichment program (`main.go` and the
enrichment variant) into Lean 4, together with theorems settling the frozen
claims about it.  Pure functions of the source are translated directly;
the network and the HTML library are modelled by explicit environments
carrying the data the program reads from them.
-/

namespace Fischertermine

/-! ## String helpers modelling the Go standard library

Go strings are byte sequences holding UTF-8.  We model them with Lean
`String`; substring search on valid UTF-8 at the byte level coincides with
search at the codepoint level (UTF-8 is self-synchronising), so
`strings.Contains` is modelled as an infix test on the character list.
-/

/-- Models `strings.Contains s sub`. -/
def goContains (s sub : String) : Bool :=
  decide (sub.toList <:+: s.toList)

/-- The whitespace class of Go `unicode.IsSpace`, restricted to the Latin-1
characters that can occur in this program's data. -/
def isGoSpace (c : Char) : Bool :=
  c = ' ' || c = '\t' || c = '\n' || c = '\x0b' || c = '\x0c' || c = '\r' ||
  c = '\x85' || c = '\xa0'

/-- Models `strings.TrimSpace`. -/
def goTrim (s : String) : String :=
  String.mk (((s.toList.dropWhile isGoSpace).reverse.dropWhile isGoSpace).reverse)

/-- Models Go `strings.ToLower` on one character, restricted to ASCII plus
the German umlauts that appear in the program's vocabulary lists. -/
def goToLowerChar (c : Char) : Char :=
  if 'A' ≤ c ∧ c ≤ 'Z' then Char.ofNat (c.toNat + 32)
  else if c = 'Ä' then 'ä'
  else if c = 'Ö' then 'ö'
  else if c = 'Ü' then 'ü'
  else c

/-- Models `strings.ToLower`. -/
def goToLower (s : String) : String :=
  String.mk (s.toList.map goToLowerChar)

/-- Replace every occurrence of character `a` by character `b`
(`strings.ReplaceAll` with one-character pattern and replacement). -/
def goReplaceChar (s : String) (a b : Char) : String :=
  String.mk (s.toList.map (fun c => if c = a then b else c))

/-- Collapse every run of consecutive spaces to a single space.  This is the
fixpoint of the source's loop `for strings.Contains(t, "  ") { t =
strings.ReplaceAll(t, "  ", " ") }`: iterating the replacement until no
double space remains leaves each maximal run of spaces as one space. -/
def collapseSpaces : List Char → List Char
  | [] => []
  | [c] => [c]
  | c1 :: c2 :: rest =>
    if c1 = ' ' ∧ c2 = ' ' then collapseSpaces (c2 :: rest)
    else c1 :: collapseSpaces (c2 :: rest)

/-- Cell-text normalisation performed by the extractor and the matcher
(part_003 lines 138-144 and 361-367): trim, turn tabs and newlines into
spaces, collapse runs of spaces, trim again. -/
def normalizeCellText (s : String) : String :=
  let t := goTrim s
  let t := goReplaceChar t '\t' ' '
  let t := goReplaceChar t '\n' ' '
  let t := String.mk (collapseSpaces t.toList)
  goTrim t

/-! ## Data model -/

/-- The record type of the program (`ExamAppointment`, part_003 lines 19-40).
Go strings default to `""`; a detail field equal to `""` is an absent
(`omitempty`) field. -/
structure ExamAppointment where
  DateTime : String := ""
  Location : String := ""
  City : String := ""
  Region : String := ""
  Status : String := ""
  ExamVenue : String := ""
  Room : String := ""
  PostalCode : String := ""
  Street : String := ""
  HouseNumber : String := ""
  ExamDate : String := ""
  ExamStartTime : String := ""
  Headphones : String := ""
  WheelchairAccessible : String := ""
  MinParticipants : String := ""
  MaxParticipants : String := ""
  CurrentParticipants : String := ""
  DetailStatus : String := ""
deriving DecidableEq, Repr

/-- All detail fields of a record are absent (empty), i.e. the record
carries only summary data. -/
def detailFieldsAbsent (e : ExamAppointment) : Prop :=
  e.ExamVenue = "" ∧ e.Room = "" ∧ e.PostalCode = "" ∧ e.Street = "" ∧
  e.HouseNumber = "" ∧ e.ExamDate = "" ∧ e.ExamStartTime = "" ∧
  e.Headphones = "" ∧ e.WheelchairAccessible = "" ∧ e.MinParticipants = "" ∧
  e.MaxParticipants = "" ∧ e.CurrentParticipants = "" ∧ e.DetailStatus = ""

instance (e : ExamAppointment) : Decidable (detailFieldsAbsent e) := by
  unfold detailFieldsAbsent; infer_instance

/-- The JSON output structure (`OutputData`, part_003 lines 43-46). -/
structure OutputData where
  ExamAppointments : List ExamAppointment
  TotalCount : Nat
deriving DecidableEq, Repr

/-! ## Row classifier -/

/-- The city vocabulary of `isHeaderSeparatorRow` (part_003 line 66). -/
def cities : List String :=
  ["augsburg", "bamberg", "freising", "münchen", "nürnberg", "regensburg",
   "rosenheim", "traunstein"]

/-- The region vocabulary of `isHeaderSeparatorRow` (part_003 line 67). -/
def regions : List String :=
  ["oberbayern", "oberpfalz", "oberfranken", "mittelfranken", "schwaben"]

/-- Number of vocabulary tokens contained in one lowered cell
(the `cityCount` loop of part_003 lines 69-78). -/
def cellVocabCount (cell : String) : Nat :=
  let cellLower := goToLower cell
  (cities.countP (fun city => goContains cellLower city)) +
  (regions.countP (fun region => goContains cellLower region))

/-- `isHeaderSeparatorRow` (part_003 lines 62-89): some cell contains more
than two vocabulary tokens, or some cell contains both status tokens. -/
def isHeaderSeparatorRow (cells : List String) : Bool :=
  cells.any (fun cell =>
    let cellLower := goToLower cell
    cellVocabCount cell > 2 ||
    (goContains cellLower "frei" && goContains cellLower "belegt"))

/-- `isValidExamRow` (part_003 lines 91-99): at least 3 cells and the first
cell shows the date/time punctuation shape. -/
def isValidExamRow (cells : List String) : Bool :=
  if cells.length < 3 then false
  else
    let firstCell := goTrim (cells.headI)
    (goContains firstCell "." && goContains firstCell ",") &&
    goContains firstCell ":"

/-- The three-way row classification of the flow (spec §4.1): the keep
condition of the extractor (part_003 line 374) is
`len(cells) > 2 && !isHeaderSeparatorRow(cells) && isValidExamRow(cells)`,
with the header check taking priority over the data check. -/
inductive RowClass where
  | headerSeparator
  | data
  | noise
deriving DecidableEq, Repr

/-- Row classification as implemented by the extractor's keep condition. -/
def classifyRow (cells : List String) : RowClass :=
  if isHeaderSeparatorRow cells then RowClass.headerSeparator
  else if cells.length > 2 && isValidExamRow cells then RowClass.data
  else RowClass.noise

/-- Record construction from an accepted data row (part_003 lines 375-383).
Go panics when a slice index is out of range; the panic is modelled as
`none`.  `cells[0]`..`cells[3]` are indexed unconditionally, `cells[4]`
only under the guard `len(cells) >= 5`. -/
def buildExamRecord (cells : List String) : Option ExamAppointment := do
  let d ← cells.get? 0
  let l ← cells.get? 1
  let c ← cells.get? 2
  let r ← cells.get? 3
  let s := if 5 ≤ cells.length then (cells.get? 4).getD "" else ""
  pure { DateTime := d, Location := l, City := c, Region := r, Status := s }

/-! ## Date/time parsing and the sort of the output assembler

`parseDateTime` (part_003 lines 101-108) calls Go `time.Parse` with the
fixed layout `"02.01.2006, 15:04"` and returns the zero `time.Time` on
error.  We embed `time.Parse` specialised to that layout: `02`, `01` and
`04` require exactly two digits, `2006` exactly four digits, `15` one or
two digits; literal separators must match; trailing text is an error;
month, hour, minute are range-checked and the day is checked against the
length of the month (with leap years). -/

/-- Value of a decimal digit character; `none` if not a digit. -/
def digitVal (c : Char) : Option Nat :=
  if '0' ≤ c ∧ c ≤ '9' then some (c.toNat - 48) else none

/-- `getnum` with `fixed = true`: exactly two digits. -/
def getnum2 : List Char → Option (Nat × List Char)
  | c1 :: c2 :: rest => do
    let d1 ← digitVal c1
    let d2 ← digitVal c2
    pure (d1 * 10 + d2, rest)
  | _ => none

/-- `getnum` with `fixed = false`: one digit, or two when the second
character is also a digit. -/
def getnum12 : List Char → Option (Nat × List Char)
  | [] => none
  | [c1] => do
    let d1 ← digitVal c1
    pure (d1, [])
  | c1 :: c2 :: rest => do
    let d1 ← digitVal c1
    match digitVal c2 with
    | some d2 => pure (d1 * 10 + d2, rest)
    | none => pure (d1, c2 :: rest)

/-- The `2006` layout item: exactly four digits. -/
def getyear4 : List Char → Option (Nat × List Char)
  | c1 :: c2 :: c3 :: c4 :: rest => do
    let d1 ← digitVal c1
    let d2 ← digitVal c2
    let d3 ← digitVal c3
    let d4 ← digitVal c4
    pure (((d1 * 10 + d2) * 10 + d3) * 10 + d4, rest)
  | _ => none

/-- Consume one expected literal character of the layout. -/
def expectChar (c : Char) : List Char → Option (List Char)
  | c' :: rest => if c' = c then some rest else none
  | [] => none

/-- Gregorian leap-year rule used by Go `time`. -/
def isLeapYear (y : Nat) : Bool :=
  y % 4 = 0 && (y % 100 ≠ 0 || y % 400 = 0)

/-- Days in a month, as Go `time.Parse` uses for its day range check. -/
def daysIn (month year : Nat) : Nat :=
  if month = 2 then (if isLeapYear year then 29 else 28)
  else if month = 4 ∨ month = 6 ∨ month = 9 ∨ month = 11 then 30
  else 31

/-- The wall-clock components a successful parse of the layout yields. -/
structure GoDateTime where
  year : Nat
  month : Nat
  day : Nat
  hour : Nat
  minute : Nat
deriving DecidableEq, Repr

/-- The zero `time.Time`: January 1 of year 1, 00:00. -/
def zeroGoDateTime : GoDateTime := ⟨1, 1, 1, 0, 0⟩

/-- `time.Parse "02.01.2006, 15:04"`, `none` on any parse error. -/
def parseDateTime (s : String) : Option GoDateTime := do
  let v := s.toList
  let (day, v) ← getnum2 v
  let v ← expectChar '.' v
  let (month, v) ← getnum2 v
  let v ← expectChar '.' v
  let (year, v) ← getyear4 v
  let v ← expectChar ',' v
  let v ← expectChar ' ' v
  let (hour, v) ← getnum12 v
  let v ← expectChar ':' v
  let (minute, v) ← getnum2 v
  if v ≠ [] then none
  else if month < 1 ∨ 12 < month then none
  else if 24 ≤ hour then none
  else if 60 ≤ minute then none
  else if day < 1 ∨ daysIn month year < day then none
  else pure ⟨year, month, day, hour, minute⟩

/-- Rank of a wall-clock value; on the in-range components produced by
`parseDateTime` it is strictly monotone in the chronological order used by
`time.Time.Before` and injective, so `Before`/`Equal` comparisons of two
parsed values coincide with `<`/`=` on ranks. -/
def timeRank (t : GoDateTime) : Nat :=
  (((t.year * 13 + t.month) * 32 + t.day) * 24 + t.hour) * 60 + t.minute

/-- The sort key the comparison closure derives from `date_time`:
the parsed value, or the zero time when parsing fails. -/
def dateTimeKey (s : String) : Nat :=
  timeRank ((parseDateTime s).getD zeroGoDateTime)

/-- Lexicographic strict comparison of character lists. -/
def lexLt : List Char → List Char → Bool
  | [], [] => false
  | [], _ :: _ => true
  | _ :: _, [] => false
  | a :: as, b :: bs =>
    if a < b then true
    else if a = b then lexLt as bs
    else false

/-- Go `<` on strings: lexicographic byte order, which on valid UTF-8
coincides with lexicographic codepoint order. -/
def goStringLt (a b : String) : Bool :=
  lexLt a.toList b.toList

/-- The comparison closure passed to `sort.Slice` (part_003 lines 111-124):
parsed date first, then location, then status. -/
def examLess (a b : ExamAppointment) : Bool :=
  if dateTimeKey a.DateTime ≠ dateTimeKey b.DateTime then
    decide (dateTimeKey a.DateTime < dateTimeKey b.DateTime)
  else if a.Location ≠ b.Location then goStringLt a.Location b.Location
  else goStringLt a.Status b.Status

/-- The postcondition Go's `sort.Slice` guarantees for the sorted slice:
no later element is `less` than an earlier one. -/
def SortedByLess (less : α → α → Bool) (l : List α) : Prop :=
  l.Pairwise (fun a b => less b a = false)

/-- The contract of Go `sort.Slice` applied to `examLess` (part_003 line
505): the output is a permutation of the input arranged so that no later
element compares less than an earlier one.  `sort.Slice` promises nothing
more — in particular it is documented as not stable, so any output
satisfying this relation is an admissible run. -/
def SortSpec (less : α → α → Bool) (input output : List α) : Prop :=
  output.Perm input ∧ SortedByLess less output

instance (less : α → α → Bool) (l : List α) :
    Decidable (SortedByLess less l) := by
  unfold SortedByLess; infer_instance

instance (less : α → α → Bool) [DecidableEq α] (input output : List α) :
    Decidable (SortSpec less input output) := by
  unfold SortSpec; infer_instance

/-- One run of the output assembler (part_003 lines 505-511): sort the
record list in place with `sort.Slice examLess`, then emit the sorted list
together with its length as `total_count`. -/
def AssemblerRun (input : List ExamAppointment) (out : OutputData) : Prop :=
  ∃ sorted, SortSpec examLess input sorted ∧
    out = { ExamAppointments := sorted, TotalCount := sorted.length }

/-! ## Record matcher (`findButtonForExam`, part_003 lines 128-166)

A listing document is modelled by its `table tr` rows in document order;
each row carries the text of its `td, th` cells and, for each
`input[type=submit].select` control in the row, the value of its `name`
attribute (`none` when the attribute is absent). -/

structure ListRow where
  cellTexts : List String
  buttons : List (Option String)
deriving DecidableEq, Repr

/-- The normalised non-empty cells of a row (part_003 lines 137-149):
normalise each cell's text, keep it when it is neither empty nor `"-"`. -/
def rowCells (row : ListRow) : List String :=
  (row.cellTexts.map normalizeCellText).filter (fun t => t ≠ "" && t ≠ "-")

/-- First assignment of the button-extraction loop (part_003 lines
157-161): the first control whose `name` attribute exists and is
non-empty (assigning an empty name leaves the accumulator empty). -/
def firstButtonName (row : ListRow) : String :=
  row.buttons.foldl
    (fun acc b =>
      if acc ≠ "" then acc
      else match b with
        | some n => n
        | none => acc)
    ""

/-- The row-matching test (part_003 lines 152-154): at least three
normalised cells and the first two equal the target's `date_time` and
`location` exactly. -/
def rowMatchesTarget (target : ExamAppointment) (row : ListRow) : Bool :=
  let cells := rowCells row
  decide (3 ≤ cells.length) && decide (cells.get? 0 = some target.DateTime) &&
    decide (cells.get? 1 = some target.Location)

/-- One step of the row scan: once the accumulator is non-empty it is
kept, otherwise a matching row contributes its first named control. -/
def matchStep (target : ExamAppointment) (buttonName : String)
    (row : ListRow) : String :=
  if buttonName ≠ "" then buttonName
  else if rowMatchesTarget target row then firstButtonName row
  else buttonName

/-- `findButtonForExam`: fold over the rows with the `buttonName`
accumulator. -/
def findButtonForExam (doc : List ListRow) (target : ExamAppointment) : String :=
  doc.foldl (matchStep target) ""

/-- The matcher as the spec's words describe it (§4.4): find the first row
whose first two fields equal the target's, and return that row's control.
Declared for comparison with `findButtonForExam`. -/
def firstEqualRowControl (doc : List ListRow) (target : ExamAppointment) : String :=
  match doc.find? (fun row => rowMatchesTarget target row) with
  | some row => firstButtonName row
  | none => ""

/-! ## Detail submitter (`fetchDetailPage`, part_003 lines 169-196)

The session-local document's `input` elements are modelled by their
`name` attribute (`none` when absent), `type` attribute (`""` when
absent), `value` attribute (`""` when absent) and whether a `checked`
attribute exists.  `url.Values` is a map from field name to value;
`Set` replaces the entry for a key. -/

structure InputElem where
  name : Option String
  inputType : String := ""
  value : String := ""
  checked : Bool := false
deriving DecidableEq, Repr

/-- The condition under which the payload loop (part_003 lines 173-190)
copies an input into the form data. -/
def includeInput (inp : InputElem) : Bool :=
  match inp.name with
  | none => false
  | some n =>
    n ≠ "" && inp.inputType ≠ "submit" && inp.inputType ≠ "image" &&
      (inp.inputType ≠ "checkbox" || inp.checked)

/-- `url.Values.Set`. -/
def formDataSet (m : String → Option String) (k v : String) :
    String → Option String :=
  fun q => if q = k then some v else m q

/-- One step of the payload loop: copy an included input's value under its
name, leave everything else untouched. -/
def payloadStep (m : String → Option String) (inp : InputElem) :
    String → Option String :=
  match inp.name with
  | some n => if includeInput inp then formDataSet m n inp.value else m
  | none => m

/-- The submission payload: every included input copied in document order,
then the matched control's name set to the empty string (part_003 line
193). -/
def buildFormData (doc : List InputElem) (buttonName : String) :
    String → Option String :=
  formDataSet (doc.foldl payloadStep (fun _ => none)) buttonName ""

/-- The names of the named input fields of a document (a `name` attribute
that exists and is non-empty), in document order. -/
def namedFields (doc : List InputElem) : List String :=
  doc.filterMap
    (fun inp =>
      match inp.name with
      | some n => if n = "" then none else some n
      | none => none)

/-! ## Detail parser (`parseDetailPage`, part_003 lines 214-253) -/

/-- The fixed label vocabulary (part_003 lines 229-231). -/
def detailLabels : List String :=
  ["Prüfungslokal", "Raum", "PLZ", "Ort", "Straße", "Hausnummer",
   "Prüfungstermin", "Prüfungsbeginn", "Kopfhörer", "Behindertengerecht",
   "Min. Teilnehmer", "Max. Teilnehmer", "Aktuelle Teilnehmer", "Status"]

/-- `setExamField` (part_003 lines 256-285).  A label without a case
(`"Ort"` is in the vocabulary but has no case) leaves the record
unchanged. -/
def setExamField (exam : ExamAppointment) (label value : String) :
    ExamAppointment :=
  match label with
  | "Prüfungslokal" => { exam with ExamVenue := value }
  | "Raum" => { exam with Room := value }
  | "PLZ" => { exam with PostalCode := value }
  | "Straße" => { exam with Street := value }
  | "Hausnummer" => { exam with HouseNumber := value }
  | "Prüfungstermin" => { exam with ExamDate := value }
  | "Prüfungsbeginn" => { exam with ExamStartTime := value }
  | "Kopfhörer" => { exam with Headphones := value }
  | "Behindertengerecht" => { exam with WheelchairAccessible := value }
  | "Min. Teilnehmer" => { exam with MinParticipants := value }
  | "Max. Teilnehmer" => { exam with MaxParticipants := value }
  | "Aktuelle Teilnehmer" => { exam with CurrentParticipants := value }
  | "Status" => { exam with DetailStatus := value }
  | _ => exam

/-- The traversal state of the single pass: the record being filled, the
`detailsSet` map (labels already assigned) and the `currentLabel`
cursor. -/
structure ParseState where
  exam : ExamAppointment
  detailsSet : List String
  currentLabel : String
deriving DecidableEq, Repr

/-- Processing of one visited node (the body of the `Each` callback,
part_003 lines 220-252).  Go `len` on a string counts bytes, so the
length ceilings use the UTF-8 byte size of the trimmed text. -/
def parseStep (s : ParseState) (nodeText : String) : ParseState :=
  let text := goTrim nodeText
  if text = "" ∨ 200 < text.utf8ByteSize then s
  else if text ∈ detailLabels then { s with currentLabel := text }
  else if s.currentLabel ≠ "" ∧ text ≠ s.currentLabel ∧
      text.utf8ByteSize < 100 then
    if goContains text s.currentLabel then s
    else
      let s' :=
        if s.currentLabel ∈ s.detailsSet then s
        else { s with
          exam := setExamField s.exam s.currentLabel text,
          detailsSet := s.currentLabel :: s.detailsSet }
      { s' with currentLabel := "" }
  else s

/-- `parseDetailPage`: fold the node texts of the detail document (in
traversal order) through `parseStep`, starting with an empty cursor and an
empty `detailsSet`, and return the updated record. -/
def parseDetailPage (nodes : List String) (exam : ExamAppointment) :
    ExamAppointment :=
  (nodes.foldl parseStep ⟨exam, [], ""⟩).exam

/-! ## Enrichment task and orchestrator (part_003 lines 400-498)

Each task interacts with the remote flow through its own fresh session;
the data the task reads from the network is modelled by a `TaskEnv`:
the outcome of the listing fetch/parse (on success, the
`form#pruefungsterminSearch` action attributes and the listing rows) and
the outcome of the detail submission (on success, the node texts of the
detail document). -/

inductive ListingResult where
  | fetchErr
  | parseErr
  | ok (forms : List (Option String)) (rows : List ListRow)
deriving DecidableEq

inductive DetailResult where
  | err
  | ok (nodes : List String)
deriving DecidableEq

structure TaskEnv where
  listing : ListingResult
  detail : DetailResult

/-- The form-action extraction loop (part_003 lines 453-459): every form
whose `action` attribute exists overwrites the accumulator, so the last
present attribute wins and the default is `""`. -/
def lastFormAction (forms : List (Option String)) : String :=
  forms.foldl
    (fun acc f =>
      match f with
      | some a => a
      | none => acc)
    ""

/-- One enrichment task (the goroutine body, part_003 lines 402-497).
Every failure path stores the untouched input record in the task's slot;
the success path stores the record updated by `parseDetailPage`. -/
def runTask (env : TaskEnv) (exam : ExamAppointment) : ExamAppointment :=
  match env.listing with
  | .fetchErr => exam
  | .parseErr => exam
  | .ok forms rows =>
    if lastFormAction forms = "" then exam
    else if findButtonForExam rows exam = "" then exam
    else
      match env.detail with
      | .err => exam
      | .ok nodes => parseDetailPage nodes exam

/-- A task's enrichment fails at some step: listing fetch error, listing
parse error, missing submission target, no matching row (empty button
name), or detail submission error. -/
def taskFails (env : TaskEnv) (exam : ExamAppointment) : Prop :=
  match env.listing with
  | .fetchErr => True
  | .parseErr => True
  | .ok forms rows =>
    lastFormAction forms = "" ∨ findButtonForExam rows exam = "" ∨
      env.detail = .err

instance : Inhabited ExamAppointment := ⟨{}⟩

/-- The pre-allocated result array `examData` (part_003 lines 394-498):
one slot per summary record, slot `i` written exactly once with the result
of task `i` run against its own environment. -/
def enrichmentSlots (summaries : List ExamAppointment)
    (envs : Nat → TaskEnv) : List ExamAppointment :=
  (List.range summaries.length).map
    (fun i => runTask (envs i) (summaries.getD i default))

/-! ## Redirect handling (part_003 lines 292-300 and 414-422)

The program installs `CheckRedirect` returning an error when
`len(via) >= 20`.  `net/http`'s client loop invokes `CheckRedirect`
before following each redirect, passing the requests already made
(the initial request first); on an error it aborts the chain.  We model a
conversation against a server that answers the first `chain` requests
with redirects and the next request with a final response; the result is
the total number of requests made, or the error. -/

def redirectLoop : Nat → Nat → Except String Nat
  | 0, reqsMade =>
    if 0 < reqsMade ∧ 20 ≤ reqsMade then .error "too many redirects"
    else .ok (reqsMade + 1)
  | n + 1, reqsMade =>
    if 0 < reqsMade ∧ 20 ≤ reqsMade then .error "too many redirects"
    else redirectLoop n (reqsMade + 1)

/-- One HTTP interaction of a conversation whose redirect chain has
`chain` redirects before the final response. -/
def clientDo (chain : Nat) : Except String Nat :=
  redirectLoop chain 0

/-! # Theorems settling the claims -/

/-! ## C3: date/time-shaped rows and the Data classification -/

/-- C3 counterexample: a row with three non-empty cells whose first cell
has the date/time shape (contains `.` and `,` and `:`) is NOT classified
Data when one of its cells also triggers the header-separator check (here
a cell containing both the free and the occupied status token), because
the header check takes priority.  This refutes the claim that every such
row yields classification Data. -/
theorem dataShape_row_not_classified_data :
    (3 ≤ (["01.01.2025, 10:00", "frei belegt", "x"] : List String).length ∧
      goContains (goTrim "01.01.2025, 10:00") "." = true ∧
      goContains (goTrim "01.01.2025, 10:00") "," = true ∧
      goContains (goTrim "01.01.2025, 10:00") ":" = true) ∧
    classifyRow ["01.01.2025, 10:00", "frei belegt", "x"] =
      RowClass.headerSeparator ∧
    classifyRow ["01.01.2025, 10:00", "frei belegt", "x"] ≠ RowClass.data := by
  decide

/-- C3 (amended): a row with at least 3 non-empty cells whose first cell
contains both a `.`-and-`,`-style date separator and a `:`-style time
separator is classified Data, provided no cell triggers the
header-separator check (which takes priority). -/
theorem classifyRow_data_of_shape (cells : List String)
    (hlen : 3 ≤ cells.length)
    (hdot : goContains (goTrim cells.headI) "." = true)
    (hcomma : goContains (goTrim cells.headI) "," = true)
    (hcolon : goContains (goTrim cells.headI) ":" = true)
    (hnothdr : isHeaderSeparatorRow cells = false) :
    classifyRow cells = RowClass.data := by
  have hvalid : isValidExamRow cells = true := by
    unfold isValidExamRow
    rw [if_neg (by omega)]
    simp [hdot, hcomma, hcolon]
  unfold classifyRow
  simp only [hnothdr, hvalid, Bool.false_eq_true, if_false, Bool.and_true]
  rw [if_pos]
  simp only [decide_eq_true_eq]
  omega

/-- Witness for C3 (amended) at a concrete data row. -/
theorem classifyRow_data_of_shape_witness :
    classifyRow ["25.10.2025, 08:00", "München", "München"] = RowClass.data :=
  classifyRow_data_of_shape ["25.10.2025, 08:00", "München", "München"]
    (by decide) (by decide) (by decide) (by decide) (by decide)

/-! ## C4: out-of-range cell access on a 3-cell data row -/

/-- C4: a row of exactly three non-empty cells that passes the extractor's
keep condition (classified Data) makes the record construction index
`cells[3]`, which does not exist: the construction fails (in Go: an index
out of range panic), contradicting the claim that only existing indices
are accessed.  The sibling extractor in `main.go` (lines 140-156) guards
this access with `len(row) >= 4`; part_003 dropped the guard. -/
theorem extractor_three_cell_row_out_of_range :
    classifyRow ["25.10.2025, 08:00", "München", "München"] = RowClass.data ∧
    (["25.10.2025, 08:00", "München", "München"] : List String).length = 3 ∧
    buildExamRecord ["25.10.2025, 08:00", "München", "München"] = none := by
  decide

/-! ## C9: header-separator classification -/

/-- C9: a row is classified HeaderSeparator whenever some single cell
contains more than two of the known location/region vocabulary tokens
(case-insensitive substring matching), or some cell contains both the
free and the occupied status token. -/
theorem classifyRow_headerSeparator_of_vocab (cells : List String)
    (h : (∃ cell ∈ cells, 2 < cellVocabCount cell) ∨
         ∃ cell ∈ cells, goContains (goToLower cell) "frei" = true ∧
           goContains (goToLower cell) "belegt" = true) :
    classifyRow cells = RowClass.headerSeparator := by
  have hh : isHeaderSeparatorRow cells = true := by
    unfold isHeaderSeparatorRow
    rw [List.any_eq_true]
    rcases h with ⟨cell, hmem, hc⟩ | ⟨cell, hmem, hf, hb⟩
    · exact ⟨cell, hmem, by simp [hc]⟩
    · exact ⟨cell, hmem, by simp [hf, hb]⟩
  unfold classifyRow
  simp [hh]

/-- Witness for C9: a single-cell row listing three known location tokens
classifies as HeaderSeparator. -/
theorem classifyRow_headerSeparator_witness :
    classifyRow ["Augsburg, München und Nürnberg"] =
      RowClass.headerSeparator :=
  classifyRow_headerSeparator_of_vocab ["Augsburg, München und Nürnberg"]
    (Or.inl ⟨"Augsburg, München und Nürnberg", by decide, by decide⟩)

/-! ## C10: redirect cap -/

/-- C10 counterexample: a conversation whose redirect chain has exactly 20
redirects fails, although the claim (cap of 20 followed, failure only
beyond it) predicts it is still followed.  The program's `CheckRedirect`
errors as soon as 20 requests have already been made, so the 20th
redirect is refused. -/
theorem redirect_chain_of_twenty_fails :
    clientDo 20 = Except.error "too many redirects" := by
  rfl

/-- C10 (amended): a conversation follows redirects only while fewer than
20 requests have been made, i.e. at most 19 redirects; a chain requiring
a 20th redirect fails with the too-many-redirects error rather than
continuing. -/
theorem clientDo_redirect_cap (n : Nat) :
    (n ≤ 19 → clientDo n = Except.ok (n + 1)) ∧
    (20 ≤ n → clientDo n = Except.error "too many redirects") := by
  have key : ∀ left made : Nat, 1 ≤ made →
      (made + left ≤ 19 → redirectLoop left made = .ok (made + left + 1)) ∧
      (20 ≤ made + left → made ≤ 20 →
        redirectLoop left made = .error "too many redirects") := by
    intro left
    induction left with
    | zero =>
      intro made h1
      constructor
      · intro h
        unfold redirectLoop
        rw [if_neg (by omega)]
      · intro h h2
        unfold redirectLoop
        rw [if_pos (by omega)]
    | succ m ih =>
      intro made h1
      constructor
      · intro h
        unfold redirectLoop
        rw [if_neg (by omega)]
        have := (ih (made + 1) (by omega)).1 (by omega)
        rw [this]
        congr 1
        omega
      · intro h h2
        unfold redirectLoop
        by_cases hm : 20 ≤ made
        · rw [if_pos (by omega)]
        · rw [if_neg (by omega)]
          exact (ih (made + 1) (by omega)).2 (by omega) (by omega)
  constructor
  · intro h
    cases n with
    | zero => rfl
    | succ m =>
      show redirectLoop (m + 1) 0 = _
      unfold redirectLoop
      rw [if_neg (by omega)]
      have := (key m 1 (by omega)).1 (by omega)
      rw [this]
      congr 1
      omega
  · intro h
    cases n with
    | zero => omega
    | succ m =>
      show redirectLoop (m + 1) 0 = _
      unfold redirectLoop
      rw [if_neg (by omega)]
      exact (key m 1 (by omega)).2 (by omega) (by omega)

/-- Witness for C10 (amended): 19 redirects are followed (20 requests),
a chain of 25 redirects fails. -/
theorem clientDo_redirect_cap_witness :
    clientDo 19 = Except.ok 20 ∧
    clientDo 25 = Except.error "too many redirects" :=
  ⟨(clientDo_redirect_cap 19).1 (by decide), (clientDo_redirect_cap 25).2 (by decide)⟩

/-! ## C8: detail-parser label/value assignment -/

/-- C8 counterexample: with label `"PLZ"` active, the next visited node
`"Raum"` satisfies every acceptance condition the claim lists (trimmed
text non-empty, below the length ceiling, not equal to the active label,
not containing the active label), yet it is NOT assigned as PLZ's value:
being itself a vocabulary label it re-points the cursor instead, and the
following node becomes Raum's value. -/
theorem label_node_not_assigned_as_value :
    (goTrim "Raum" ≠ "" ∧ (goTrim "Raum").utf8ByteSize < 100 ∧
      goTrim "Raum" ≠ "PLZ" ∧ goContains (goTrim "Raum") "PLZ" = false) ∧
    (parseDetailPage ["PLZ", "Raum", "85354"] {}).PostalCode = "" ∧
    (parseDetailPage ["PLZ", "Raum", "85354"] {}).Room = "85354" := by
  decide

/-- C8 (amended): in the detail parser's single pass, once a label is
active, a visited node whose trimmed text is non-empty, below the length
ceiling, not equal to ANY vocabulary label, and not containing the active
label as a substring is assigned as the active label's value and the
cursor clears; only the first assignment per field takes effect (a later
match for an already-set field assigns nothing, though it still clears
the cursor); a node exactly equal to a vocabulary label instead becomes
the new active label; every other node leaves the state unchanged.
These step facts determine the pass `parseDetailPage` as the fold of
`parseStep`. -/
theorem parseStep_spec (s : ParseState) (node : String)
    (nodes : List String) (exam : ExamAppointment) :
    (goTrim node ≠ "" → (goTrim node).utf8ByteSize < 100 →
      goTrim node ∉ detailLabels → s.currentLabel ≠ "" →
      goTrim node ≠ s.currentLabel →
      goContains (goTrim node) s.currentLabel = false →
      (parseStep s node).currentLabel = "" ∧
      (s.currentLabel ∉ s.detailsSet →
        (parseStep s node).exam =
          setExamField s.exam s.currentLabel (goTrim node) ∧
        (parseStep s node).detailsSet = s.currentLabel :: s.detailsSet) ∧
      (s.currentLabel ∈ s.detailsSet →
        (parseStep s node).exam = s.exam ∧
        (parseStep s node).detailsSet = s.detailsSet)) ∧
    (goTrim node ∈ detailLabels →
      parseStep s node = { s with currentLabel := goTrim node }) ∧
    (goTrim node ∉ detailLabels →
      (goTrim node = "" ∨ 200 < (goTrim node).utf8ByteSize ∨
        ¬ (goTrim node).utf8ByteSize < 100 ∨
        goContains (goTrim node) s.currentLabel = true ∨
        s.currentLabel = "") →
      parseStep s node = s) ∧
    parseDetailPage nodes exam = (nodes.foldl parseStep ⟨exam, [], ""⟩).exam := by
  refine ⟨?_, ?_, ?_, rfl⟩
  · intro hne hlt hnl hcl hneq hcont
    unfold parseStep
    rw [if_neg (by push_neg; exact ⟨hne, by omega⟩), if_neg hnl,
      if_pos ⟨hcl, hneq, hlt⟩, if_neg (by simp [hcont])]
    by_cases hset : s.currentLabel ∈ s.detailsSet
    · rw [if_pos hset]
      exact ⟨rfl, fun hns => absurd hset hns, fun _ => ⟨rfl, rfl⟩⟩
    · rw [if_neg hset]
      exact ⟨rfl, fun _ => ⟨rfl, rfl⟩, fun hs => absurd hs hset⟩
  · intro h
    have hprop : goTrim node ≠ "" ∧ (goTrim node).utf8ByteSize ≤ 200 := by
      simp only [detailLabels, List.mem_cons, List.not_mem_nil, or_false] at h
      rcases h with h | h | h | h | h | h | h | h | h | h | h | h | h | h <;>
        rw [h] <;> exact ⟨by decide, by decide⟩
    unfold parseStep
    rw [if_neg (by push_neg; exact ⟨hprop.1, by omega⟩), if_pos h]
  · intro hnl hother
    unfold parseStep
    by_cases h0 : goTrim node = "" ∨ 200 < (goTrim node).utf8ByteSize
    · rw [if_pos h0]
    · rw [if_neg h0, if_neg hnl]
      by_cases h3 : s.currentLabel ≠ "" ∧ goTrim node ≠ s.currentLabel ∧
          (goTrim node).utf8ByteSize < 100
      · rw [if_pos h3]
        have hc : goContains (goTrim node) s.currentLabel = true := by
          rcases hother with h | h | h | h | h
          · exact absurd (Or.inl h) h0
          · exact absurd (Or.inr h) h0
          · exact absurd h3.2.2 h
          · exact h
          · exact absurd h h3.1
        rw [if_pos (by simp [hc])]
      · rw [if_neg h3]

/-- Witness for C8 (amended): with `"PLZ"` active and the empty
`detailsSet`, the node `"85354"` is assigned as the postal code and the
cursor clears. -/
theorem parseStep_spec_witness :
    (parseStep ⟨{}, [], "PLZ"⟩ "85354").currentLabel = "" ∧
    (parseStep ⟨{}, [], "PLZ"⟩ "85354").exam = setExamField {} "PLZ" "85354" ∧
    (parseStep ⟨{}, [], "PLZ"⟩ "85354").detailsSet = ["PLZ"] := by
  have h := (parseStep_spec ⟨{}, [], "PLZ"⟩ "85354" [] {}).1
    (by decide) (by decide) (by decide) (by decide) (by decide) (by decide)
  refine ⟨h.1, ?_, (h.2.1 (by decide)).2⟩
  exact (h.2.1 (by decide)).1.trans (by decide)

/-! ## C6: record matcher -/

/-- A non-empty accumulator survives the rest of the row scan. -/
theorem foldl_matchStep_keep (target : ExamAppointment) (doc : List ListRow)
    (acc : String) (h : acc ≠ "") :
    doc.foldl (matchStep target) acc = acc := by
  induction doc with
  | nil => rfl
  | cons row rest ih =>
    show rest.foldl (matchStep target) (matchStep target acc row) = acc
    rw [show matchStep target acc row = acc from if_pos h]
    exact ih

/-- Unfolding of the row scan on a cons cell. -/
theorem findButtonForExam_cons (target : ExamAppointment) (row : ListRow)
    (rest : List ListRow) :
    findButtonForExam (row :: rest) target =
      if rowMatchesTarget target row = true ∧ firstButtonName row ≠ "" then
        firstButtonName row
      else findButtonForExam rest target := by
  show rest.foldl (matchStep target) (matchStep target "" row) = _
  by_cases hm : rowMatchesTarget target row = true
  · have hstep : matchStep target "" row = firstButtonName row := by
      simp [matchStep, hm]
    by_cases hb : firstButtonName row ≠ ""
    · rw [if_pos ⟨hm, hb⟩, hstep]
      exact foldl_matchStep_keep target rest _ hb
    · rw [if_neg (by tauto), hstep, not_not.mp hb]
      rfl
  · rw [if_neg (by tauto)]
    have hstep : matchStep target "" row = "" := by
      simp [matchStep, hm]
    rw [hstep]
    rfl

/-- Soundness of the row scan: a non-empty result is the first named
control of some row whose first two normalised cells equal the target's
`date_time` and `location`. -/
theorem findButtonForExam_sound (doc : List ListRow)
    (target : ExamAppointment) :
    findButtonForExam doc target ≠ "" →
      ∃ row ∈ doc, rowMatchesTarget target row = true ∧
        findButtonForExam doc target = firstButtonName row := by
  induction doc with
  | nil => intro h; exact absurd rfl h
  | cons row rest ih =>
    rw [findButtonForExam_cons]
    by_cases hc : rowMatchesTarget target row = true ∧ firstButtonName row ≠ ""
    · rw [if_pos hc]
      intro _
      exact ⟨row, List.mem_cons_self row rest, hc.1, rfl⟩
    · rw [if_neg hc]
      intro h
      obtain ⟨r, hmem, hr⟩ := ih h
      exact ⟨r, List.mem_cons_of_mem row hmem, hr⟩

/-- C6: the matcher compares a target against each re-extracted listing
row by exact string equality of the first two normalised cells
(`date_time`, `location`).  (1) any non-empty result is the first named
control of some row whose first two cells equal the target's; (2) when
every matching row carries a named control, the result is exactly the
control of the FIRST matching row (the spec-level description
`firstEqualRowControl`); (3) consequently the matcher never returns the
control of a row that does not match the target — in particular, for two
records with equal date_time and distinct locations it never returns the
other location's control. -/
theorem findButtonForExam_exact (doc : List ListRow)
    (target : ExamAppointment) :
    (findButtonForExam doc target ≠ "" →
      ∃ row ∈ doc, rowMatchesTarget target row = true ∧
        findButtonForExam doc target = firstButtonName row) ∧
    ((∀ row ∈ doc, rowMatchesTarget target row = true →
        firstButtonName row ≠ "") →
      findButtonForExam doc target = firstEqualRowControl doc target) ∧
    (∀ other ∈ doc, rowMatchesTarget target other = false →
      (∀ row ∈ doc, rowMatchesTarget target row = true →
        firstButtonName row ≠ firstButtonName other) →
      findButtonForExam doc target ≠ "" →
      findButtonForExam doc target ≠ firstButtonName other) := by
  refine ⟨findButtonForExam_sound doc target, ?_, ?_⟩
  · induction doc with
    | nil => intro _; rfl
    | cons row rest ih =>
      intro hall
      rw [findButtonForExam_cons]
      unfold firstEqualRowControl
      by_cases hm : rowMatchesTarget target row = true
      · rw [if_pos ⟨hm, hall row (List.mem_cons_self row rest) hm⟩,
          List.find?_cons_of_pos _ hm]
      · rw [if_neg (by tauto), List.find?_cons_of_neg _ (by simp [hm])]
        exact ih (by
          intro r hmem hr
          exact hall r (List.mem_cons_of_mem row hmem) hr)
  · intro other _ hother hdist hne hcontra
    obtain ⟨r, hmem, hrm, heq⟩ := findButtonForExam_sound doc target hne
    exact hdist r hmem hrm (heq ▸ hcontra)

/-- Witness for C6: two rows share a date_time and differ in location;
the matcher invoked for the Nürnberg record returns the Nürnberg row's
control, agrees with the first-equal-row description, and differs from
the München row's control. -/
theorem findButtonForExam_exact_witness :
    findButtonForExam
        [⟨["25.10.2025, 08:00", "München", "x"], [some "selectA"]⟩,
         ⟨["25.10.2025, 08:00", "Nürnberg", "x"], [some "selectB"]⟩]
        { DateTime := "25.10.2025, 08:00", Location := "Nürnberg" } =
      firstEqualRowControl
        [⟨["25.10.2025, 08:00", "München", "x"], [some "selectA"]⟩,
         ⟨["25.10.2025, 08:00", "Nürnberg", "x"], [some "selectB"]⟩]
        { DateTime := "25.10.2025, 08:00", Location := "Nürnberg" } ∧
    findButtonForExam
        [⟨["25.10.2025, 08:00", "München", "x"], [some "selectA"]⟩,
         ⟨["25.10.2025, 08:00", "Nürnberg", "x"], [some "selectB"]⟩]
        { DateTime := "25.10.2025, 08:00", Location := "Nürnberg" } ≠
      firstButtonName ⟨["25.10.2025, 08:00", "München", "x"], [some "selectA"]⟩ := by
  have h := findButtonForExam_exact
    [⟨["25.10.2025, 08:00", "München", "x"], [some "selectA"]⟩,
     ⟨["25.10.2025, 08:00", "Nürnberg", "x"], [some "selectB"]⟩]
    { DateTime := "25.10.2025, 08:00", Location := "Nürnberg" }
  exact ⟨h.2.1 (by decide),
    h.2.2 ⟨["25.10.2025, 08:00", "München", "x"], [some "selectA"]⟩
      (by decide) (by decide) (by decide) (by decide)⟩

/-! ## C5: output assembler ordering -/

/-- Totality of the lexicographic comparison: when `lexLt as bs` is false,
the lists are equal or the reverse comparison holds. -/
theorem lexLt_total (as : List Char) :
    ∀ bs, lexLt as bs = false → as = bs ∨ lexLt bs as = true := by
  induction as with
  | nil =>
    intro bs h
    cases bs with
    | nil => exact Or.inl rfl
    | cons b bs => simp [lexLt] at h
  | cons a as ih =>
    intro bs h
    cases bs with
    | nil => exact Or.inr (by simp [lexLt])
    | cons b bs =>
      unfold lexLt at h
      by_cases hab : a < b
      · rw [if_pos hab] at h
        exact absurd h (by simp)
      · rw [if_neg hab] at h
        by_cases heq : a = b
        · rw [if_pos heq] at h
          rcases ih bs h with rfl | hlt
          · exact Or.inl (by rw [heq])
          · subst heq
            right
            unfold lexLt
            rw [if_neg (lt_irrefl a), if_pos rfl]
            exact hlt
        · right
          have hba : b < a := by
            rcases lt_trichotomy a b with h1 | h1 | h1
            · exact absurd h1 hab
            · exact absurd h1 heq
            · exact h1
          unfold lexLt
          rw [if_pos hba]
  
/-- Totality of the Go string comparison. -/
theorem goStringLt_total (a b : String) (h : goStringLt a b = false) :
    a = b ∨ goStringLt b a = true := by
  rcases lexLt_total a.toList b.toList h with heq | hlt
  · left
    cases a
    cases b
    exact congrArg String.mk heq
  · exact Or.inr hlt

/-- C5 counterexample: two records that are equal under all three sort
keys (same `date_time`, `location` and `status`) but distinct records
(different `city`) can legally be emitted in reversed order: the reversed
list satisfies everything the unstable `sort.Slice` guarantees about the
comparison closure, so an assembler run need not keep the relative input
order of key-equal records, refuting the claimed stability. -/
theorem assembler_not_stable :
    AssemblerRun
      [{ DateTime := "25.10.2025, 08:00", Location := "München", City := "A" },
       { DateTime := "25.10.2025, 08:00", Location := "München", City := "B" }]
      { ExamAppointments :=
          [{ DateTime := "25.10.2025, 08:00", Location := "München", City := "B" },
           { DateTime := "25.10.2025, 08:00", Location := "München", City := "A" }],
        TotalCount := 2 } ∧
    ([{ DateTime := "25.10.2025, 08:00", Location := "München", City := "B" },
      { DateTime := "25.10.2025, 08:00", Location := "München", City := "A" }] :
        List ExamAppointment) ≠
    [{ DateTime := "25.10.2025, 08:00", Location := "München", City := "A" },
     { DateTime := "25.10.2025, 08:00", Location := "München", City := "B" }] :=
  ⟨⟨_, by decide, rfl⟩, by decide⟩

/-- C5 (amended): every run of the output assembler emits a permutation
of the record list ordered by the three keys — parsed `date_time` first
(unparseable values carrying the zero time's key), then location in Go's
lexical string order, then status — together with `total_count` equal to
the list length.  Stability of key-equal records is NOT guaranteed
(`sort.Slice` is unstable; see the counterexample). -/
theorem assembler_sorted_by_keys (input : List ExamAppointment)
    (out : OutputData) (h : AssemblerRun input out) :
    out.ExamAppointments.Perm input ∧
    out.TotalCount = out.ExamAppointments.length ∧
    out.ExamAppointments.Pairwise (fun a b =>
      dateTimeKey a.DateTime ≤ dateTimeKey b.DateTime ∧
      (dateTimeKey a.DateTime = dateTimeKey b.DateTime →
        a.Location = b.Location ∨ goStringLt a.Location b.Location = true) ∧
      (dateTimeKey a.DateTime = dateTimeKey b.DateTime →
        a.Location = b.Location →
        a.Status = b.Status ∨ goStringLt a.Status b.Status = true)) := by
  obtain ⟨sorted, ⟨hperm, hsort⟩, rfl⟩ := h
  refine ⟨hperm, rfl, ?_⟩
  refine hsort.imp ?_
  intro a b hab
  unfold examLess at hab
  by_cases hd : dateTimeKey b.DateTime ≠ dateTimeKey a.DateTime
  · rw [if_pos hd] at hab
    have hba : ¬ dateTimeKey b.DateTime < dateTimeKey a.DateTime := by
      simpa using hab
    refine ⟨by omega, fun he => absurd he.symm hd, fun he _ => absurd he.symm hd⟩
  · rw [if_neg hd] at hab
    push_neg at hd
    by_cases hl : b.Location ≠ a.Location
    · rw [if_pos hl] at hab
      rcases goStringLt_total b.Location a.Location hab with heq | hlt
      · exact absurd heq hl
      · exact ⟨le_of_eq hd.symm, fun _ => Or.inr hlt,
          fun _ hle => absurd hle.symm hl⟩
    · rw [if_neg hl] at hab
      push_neg at hl
      rcases goStringLt_total b.Status a.Status hab with heq | hlt
      · exact ⟨le_of_eq hd.symm, fun _ => Or.inl hl.symm,
          fun _ _ => Or.inl heq.symm⟩
      · exact ⟨le_of_eq hd.symm, fun _ => Or.inl hl.symm,
          fun _ _ => Or.inr hlt⟩

/-- Witness for C5 (amended) on a concrete assembler run. -/
theorem assembler_sorted_by_keys_witness :
    ({ ExamAppointments :=
         [{ DateTime := "01.01.2025, 08:00", Location := "A" },
          { DateTime := "02.01.2025, 08:00", Location := "B" }],
       TotalCount := 2 } : OutputData).ExamAppointments.Perm
      [{ DateTime := "02.01.2025, 08:00", Location := "B" },
       { DateTime := "01.01.2025, 08:00", Location := "A" }] ∧
    ({ ExamAppointments :=
         [{ DateTime := "01.01.2025, 08:00", Location := "A" },
          { DateTime := "02.01.2025, 08:00", Location := "B" }],
       TotalCount := 2 } : OutputData).TotalCount =
      ({ ExamAppointments :=
           [{ DateTime := "01.01.2025, 08:00", Location := "A" },
            { DateTime := "02.01.2025, 08:00", Location := "B" }],
         TotalCount := 2 } : OutputData).ExamAppointments.length ∧
    ({ ExamAppointments :=
         [{ DateTime := "01.01.2025, 08:00", Location := "A" },
          { DateTime := "02.01.2025, 08:00", Location := "B" }],
       TotalCount := 2 } : OutputData).ExamAppointments.Pairwise (fun a b =>
      dateTimeKey a.DateTime ≤ dateTimeKey b.DateTime ∧
      (dateTimeKey a.DateTime = dateTimeKey b.DateTime →
        a.Location = b.Location ∨ goStringLt a.Location b.Location = true) ∧
      (dateTimeKey a.DateTime = dateTimeKey b.DateTime →
        a.Location = b.Location →
        a.Status = b.Status ∨ goStringLt a.Status b.Status = true)) :=
  assembler_sorted_by_keys
    [{ DateTime := "02.01.2025, 08:00", Location := "B" },
     { DateTime := "01.01.2025, 08:00", Location := "A" }]
    { ExamAppointments :=
        [{ DateTime := "01.01.2025, 08:00", Location := "A" },
         { DateTime := "02.01.2025, 08:00", Location := "B" }],
      TotalCount := 2 }
    ⟨[{ DateTime := "01.01.2025, 08:00", Location := "A" },
      { DateTime := "02.01.2025, 08:00", Location := "B" }], by decide, rfl⟩

/-! ## C1 and C2: orchestrator invariants -/

/-- A task whose enrichment fails at any step stores its input record
unchanged. -/
theorem runTask_of_failure (env : TaskEnv) (exam : ExamAppointment)
    (h : taskFails env exam) : runTask env exam = exam := by
  rcases env with ⟨listing, detail⟩
  cases listing with
  | fetchErr => rfl
  | parseErr => rfl
  | ok forms rows =>
    unfold taskFails at h
    cases detail with
    | err =>
      show (if lastFormAction forms = "" then exam
        else if findButtonForExam rows exam = "" then exam else exam) = exam
      by_cases h1 : lastFormAction forms = ""
      · rw [if_pos h1]
      · rw [if_neg h1]
        by_cases h2 : findButtonForExam rows exam = ""
        · rw [if_pos h2]
        · rw [if_neg h2]
    | ok nodes =>
      rcases h with h1 | h2 | h3
      · show (if lastFormAction forms = "" then exam
          else if findButtonForExam rows exam = "" then exam
          else parseDetailPage nodes exam) = exam
        rw [if_pos h1]
      · show (if lastFormAction forms = "" then exam
          else if findButtonForExam rows exam = "" then exam
          else parseDetailPage nodes exam) = exam
        by_cases h1 : lastFormAction forms = ""
        · rw [if_pos h1]
        · rw [if_neg h1, if_pos h2]
      · exact absurd h3 (by simp)

/-- Slot `i` of the result array is task `i` run on summary `i`. -/
theorem enrichmentSlots_getElem (summaries : List ExamAppointment)
    (envs : Nat → TaskEnv) (i : Nat) :
    (enrichmentSlots summaries envs)[i]? =
      (summaries[i]?).map (fun s => runTask (envs i) s) := by
  unfold enrichmentSlots
  rw [List.getElem?_map]
  by_cases h : i < summaries.length
  · rw [List.getElem?_range h, List.getElem?_eq_getElem h]
    show some (runTask (envs i) (summaries.getD i default)) = _
    rw [show summaries.getD i default = summaries[i] by
      simp [List.getD, List.getElem?_eq_getElem h]]
    rfl
  · rw [List.getElem?_eq_none (by simpa using h),
      List.getElem?_eq_none (by simpa using h)]
    rfl

/-- C1: every run of the pipeline produces exactly one record per
initially-extracted summary record — the output list's length equals the
number of summaries and `total_count` equals that length — regardless of
which per-task enrichment steps fail (the environments are universally
quantified). -/
theorem pipeline_preserves_count (summaries : List ExamAppointment)
    (envs : Nat → TaskEnv) (out : OutputData)
    (h : AssemblerRun (enrichmentSlots summaries envs) out) :
    out.ExamAppointments.length = summaries.length ∧
    out.TotalCount = summaries.length := by
  obtain ⟨sorted, ⟨hperm, _⟩, rfl⟩ := h
  have hlen : sorted.length = summaries.length := by
    rw [hperm.length_eq]
    unfold enrichmentSlots
    rw [List.length_map, List.length_range]
  exact ⟨hlen, hlen⟩

/-- Witness for C1 on a run with one summary record whose task fails. -/
theorem pipeline_preserves_count_witness :
    ({ ExamAppointments := [{ DateTime := "x" }], TotalCount := 1 } :
        OutputData).ExamAppointments.length =
      ([{ DateTime := "x" }] : List ExamAppointment).length ∧
    ({ ExamAppointments := [{ DateTime := "x" }], TotalCount := 1 } :
        OutputData).TotalCount =
      ([{ DateTime := "x" }] : List ExamAppointment).length :=
  pipeline_preserves_count [{ DateTime := "x" }]
    (fun _ => ⟨ListingResult.fetchErr, DetailResult.err⟩)
    { ExamAppointments := [{ DateTime := "x" }], TotalCount := 1 }
    ⟨[{ DateTime := "x" }], by decide, rfl⟩

/-- C2: when task `i` fails at any step (listing fetch error, listing
parse error, missing submission target, no matching row, submission
error), slot `i` receives exactly its input summary record — whose detail
fields stay absent — while the run still produces one slot per summary
and every other slot is unaffected by task `i`'s environment. -/
theorem task_failure_degrades_only_its_slot
    (summaries : List ExamAppointment) (envs : Nat → TaskEnv) (i : Nat)
    (s_i : ExamAppointment)
    (hget : summaries[i]? = some s_i)
    (hfail : taskFails (envs i) s_i)
    (hsummary : detailFieldsAbsent s_i) :
    (enrichmentSlots summaries envs)[i]? = some s_i ∧
    (∀ e, (enrichmentSlots summaries envs)[i]? = some e →
      detailFieldsAbsent e) ∧
    (enrichmentSlots summaries envs).length = summaries.length ∧
    (∀ envs' : Nat → TaskEnv, (∀ j, j ≠ i → envs' j = envs j) →
      ∀ j, j ≠ i → (enrichmentSlots summaries envs')[j]? =
        (enrichmentSlots summaries envs)[j]?) := by
  have hslot : (enrichmentSlots summaries envs)[i]? = some s_i := by
    rw [enrichmentSlots_getElem, hget]
    show some (runTask (envs i) s_i) = some s_i
    rw [runTask_of_failure (envs i) s_i hfail]
  refine ⟨hslot, ?_, ?_, ?_⟩
  · intro e he
    rw [hslot] at he
    obtain rfl : s_i = e := by injection he
    exact hsummary
  · unfold enrichmentSlots
    rw [List.length_map, List.length_range]
  · intro envs' hsame j hj
    rw [enrichmentSlots_getElem, enrichmentSlots_getElem, hsame j hj]

/-- Witness for C2: of two summary records, task 1 finds no matching row
in its session-local listing (empty listing) and its slot degrades to the
bare summary record while the run keeps both slots. -/
theorem task_failure_degrades_only_its_slot_witness :
    (enrichmentSlots [{ DateTime := "a" }, { DateTime := "b" }]
        (fun j => if j = 1 then
            ⟨ListingResult.ok [some "act"] [], DetailResult.err⟩
          else ⟨ListingResult.fetchErr, DetailResult.err⟩))[1]? =
      some { DateTime := "b" } ∧
    (enrichmentSlots [{ DateTime := "a" }, { DateTime := "b" }]
        (fun j => if j = 1 then
            ⟨ListingResult.ok [some "act"] [], DetailResult.err⟩
          else ⟨ListingResult.fetchErr, DetailResult.err⟩)).length = 2 :=
  have h := task_failure_degrades_only_its_slot
    [{ DateTime := "a" }, { DateTime := "b" }]
    (fun j => if j = 1 then
        ⟨ListingResult.ok [some "act"] [], DetailResult.err⟩
      else ⟨ListingResult.fetchErr, DetailResult.err⟩)
    1 { DateTime := "b" } rfl (Or.inr (Or.inl rfl)) (by decide)
  ⟨h.1, h.2.2.1.trans rfl⟩

/-! ## C7: detail submitter payload -/

/-- An included input has a non-empty name, is not a submit or image
control, and is checked when it is a checkbox. -/
theorem includeInput_spec (inp : InputElem) (n : String)
    (hname : inp.name = some n) (hinc : includeInput inp = true) :
    n ≠ "" ∧ inp.inputType ≠ "submit" ∧ inp.inputType ≠ "image" ∧
      (inp.inputType = "checkbox" → inp.checked = true) := by
  rcases inp with ⟨name, t, v, c⟩
  simp only at hname
  subst hname
  unfold includeInput at hinc
  simp only [Bool.and_eq_true, decide_eq_true_eq, Bool.or_eq_true] at hinc
  refine ⟨hinc.1.1.1, hinc.1.1.2, hinc.1.2, ?_⟩
  intro hcb
  rcases hinc.2 with h | h
  · exact absurd hcb h
  · exact h

/-- The inclusion condition of the payload loop, positively. -/
theorem includeInput_of (inp : InputElem) (n : String)
    (hname : inp.name = some n) (hn : n ≠ "")
    (hs : inp.inputType ≠ "submit") (hi : inp.inputType ≠ "image")
    (hc : inp.inputType = "checkbox" → inp.checked = true) :
    includeInput inp = true := by
  rcases inp with ⟨name, t, v, c⟩
  simp only at hname
  subst hname
  unfold includeInput
  simp only [Bool.and_eq_true, decide_eq_true_eq, Bool.or_eq_true]
  refine ⟨⟨⟨hn, hs⟩, hi⟩, ?_⟩
  by_cases hcb : t = "checkbox"
  · exact Or.inr (hc hcb)
  · exact Or.inl hcb

/-- Submit controls, image controls and unchecked checkboxes are never
copied into the payload. -/
theorem includeInput_excluded (inp : InputElem)
    (h : inp.inputType = "submit" ∨ inp.inputType = "image" ∨
      (inp.inputType = "checkbox" ∧ inp.checked = false)) :
    includeInput inp = false := by
  rcases inp with ⟨name, t, v, c⟩
  cases name with
  | none => rfl
  | some n =>
    simp only at h
    rcases h with h | h | ⟨h, hc⟩
    · subst h; simp [includeInput]
    · subst h; simp [includeInput]
    · subst h; subst hc; simp [includeInput]

/-- A named input contributes its name to `namedFields`. -/
theorem mem_namedFields (doc : List InputElem) (inp : InputElem)
    (hmem : inp ∈ doc) (n : String) (hname : inp.name = some n)
    (hn : n ≠ "") : n ∈ namedFields doc := by
  unfold namedFields
  refine List.mem_filterMap.mpr ⟨inp, hmem, ?_⟩
  rw [hname]
  simp [hn]

/-- `namedFields` of a tail stays duplicate-free. -/
theorem namedFields_tail (x : InputElem) (rest : List InputElem)
    (h : (namedFields (x :: rest)).Nodup) : (namedFields rest).Nodup := by
  unfold namedFields at h ⊢
  rw [List.filterMap_cons] at h
  cases hx : x.name with
  | none => rw [hx] at h; exact h
  | some n =>
    rw [hx] at h
    by_cases hn : n = ""
    · simpa [hn] using h
    · simp only [hn, if_false] at h
      exact (List.nodup_cons.mp h).2

/-- Under duplicate-free names, two inputs of the document carrying the
same non-empty name are the same input. -/
theorem named_input_unique (doc : List InputElem) :
    (namedFields doc).Nodup → ∀ n : String, n ≠ "" →
    ∀ inp1 ∈ doc, inp1.name = some n →
    ∀ inp2 ∈ doc, inp2.name = some n → inp1 = inp2 := by
  induction doc with
  | nil =>
    intro _ n _ inp1 h1
    exact absurd h1 (List.not_mem_nil inp1)
  | cons x rest ih =>
    intro hnd n hn inp1 hmem1 hname1 inp2 hmem2 hname2
    rcases List.mem_cons.mp hmem1 with rfl | hmem1'
    · rcases List.mem_cons.mp hmem2 with rfl | hmem2'
      · rfl
      · exfalso
        have hcons : namedFields (inp1 :: rest) = n :: namedFields rest := by
          unfold namedFields
          rw [List.filterMap_cons, hname1]
          simp [hn]
        rw [hcons] at hnd
        exact (List.nodup_cons.mp hnd).1
          (mem_namedFields rest inp2 hmem2' n hname2 hn)
    · rcases List.mem_cons.mp hmem2 with rfl | hmem2'
      · exfalso
        have hcons : namedFields (inp2 :: rest) = n :: namedFields rest := by
          unfold namedFields
          rw [List.filterMap_cons, hname2]
          simp [hn]
        rw [hcons] at hnd
        exact (List.nodup_cons.mp hnd).1
          (mem_namedFields rest inp1 hmem1' n hname1 hn)
      · exact ih (namedFields_tail x rest hnd) n hn inp1 hmem1' hname1
          inp2 hmem2' hname2

/-- A key no included input carries passes through the payload fold. -/
theorem payloadFold_skip (doc : List InputElem) :
    ∀ (m : String → Option String) (q : String),
      (∀ inp ∈ doc, ∀ n, inp.name = some n → includeInput inp = true →
        n ≠ q) →
      (doc.foldl payloadStep m) q = m q := by
  induction doc with
  | nil => intro m q _; rfl
  | cons x rest ih =>
    intro m q h
    show (rest.foldl payloadStep (payloadStep m x)) q = m q
    rw [ih _ q (fun inp hmem => h inp (List.mem_cons_of_mem x hmem))]
    unfold payloadStep
    cases hx : x.name with
    | none => rfl
    | some n =>
      show (if includeInput x = true then formDataSet m n x.value else m) q
        = m q
      by_cases hinc : includeInput x = true
      · rw [if_pos hinc]
        unfold formDataSet
        rw [if_neg (Ne.symm (h x (List.mem_cons_self x rest) n hx hinc))]
      · rw [if_neg hinc]

/-- The payload fold stores an included input's value under its name. -/
theorem payloadFold_set (doc : List InputElem) :
    ∀ (m : String → Option String) (q : String) (inp : InputElem),
      inp ∈ doc → inp.name = some q → includeInput inp = true →
      (namedFields doc).Nodup →
      (doc.foldl payloadStep m) q = some inp.value := by
  induction doc with
  | nil =>
    intro m q inp hmem
    exact absurd hmem (List.not_mem_nil inp)
  | cons x rest ih =>
    intro m q inp hmem hname hinc hnd
    have hq : q ≠ "" := (includeInput_spec inp q hname hinc).1
    rcases List.mem_cons.mp hmem with rfl | hmem'
    · show (rest.foldl payloadStep (payloadStep m inp)) q = some inp.value
      have hnotin : q ∉ namedFields rest := by
        have hcons : namedFields (inp :: rest) = q :: namedFields rest := by
          unfold namedFields
          rw [List.filterMap_cons, hname]
          simp [hq]
        rw [hcons] at hnd
        exact (List.nodup_cons.mp hnd).1
      rw [payloadFold_skip rest _ q (by
        intro inp2 hmem2 n2 hname2 hinc2 heq
        subst heq
        exact hnotin (mem_namedFields rest inp2 hmem2 n2 hname2
          (includeInput_spec inp2 n2 hname2 hinc2).1))]
      unfold payloadStep
      rw [hname]
      show (if includeInput inp = true then formDataSet m q inp.value else m) q
        = some inp.value
      rw [if_pos hinc]
      unfold formDataSet
      rw [if_pos rfl]
    · show (rest.foldl payloadStep (payloadStep m x)) q = some inp.value
      exact ih _ q inp hmem' hname hinc (namedFields_tail x rest hnd)

/-- C7: for every session-local document and matched control name, the
submission payload maps the control's name to the empty string; contains
every named input field except submit- and image-type controls, each
mapped to its current value; contains no submit or image control other
than the matched one; and contains a checkbox field if and only if the
checkbox is marked checked (unchecked checkboxes are absent entirely).
Field names are assumed pairwise distinct (the flow's documents name each
field once) and the matched control is one of the document's submit
buttons. -/
theorem buildFormData_spec (doc : List InputElem) (buttonName : String)
    (hnd : (namedFields doc).Nodup)
    (hbtn : ∀ inp ∈ doc, inp.name = some buttonName →
      inp.inputType = "submit") :
    buildFormData doc buttonName buttonName = some "" ∧
    (∀ inp ∈ doc, ∀ n, inp.name = some n → n ≠ "" → n ≠ buttonName →
      inp.inputType ≠ "submit" → inp.inputType ≠ "image" →
      (inp.inputType = "checkbox" → inp.checked = true) →
      buildFormData doc buttonName n = some inp.value) ∧
    (∀ inp ∈ doc, ∀ n, inp.name = some n → n ≠ buttonName →
      (inp.inputType = "submit" ∨ inp.inputType = "image") →
      buildFormData doc buttonName n = none) ∧
    (∀ inp ∈ doc, ∀ n, inp.name = some n → inp.inputType = "checkbox" →
      inp.checked = false → buildFormData doc buttonName n = none) := by
  have habsent : ∀ inp ∈ doc, ∀ n, inp.name = some n →
      n ≠ buttonName → includeInput inp = false →
      buildFormData doc buttonName n = none := by
    intro inp hmem n hname hnbtn hexcl
    unfold buildFormData formDataSet
    rw [if_neg hnbtn]
    refine payloadFold_skip doc _ n ?_
    intro inp2 hmem2 n2 hname2 hinc2 heq
    subst heq
    have h2 : inp2 = inp :=
      named_input_unique doc hnd n2
        (includeInput_spec inp2 n2 hname2 hinc2).1
        inp2 hmem2 hname2 inp hmem hname
    rw [h2, hexcl] at hinc2
    exact Bool.noConfusion hinc2
  refine ⟨?_, ?_, ?_, ?_⟩
  · unfold buildFormData formDataSet
    rw [if_pos rfl]
  · intro inp hmem n hname hn hnbtn hs hi hc
    unfold buildFormData formDataSet
    rw [if_neg hnbtn]
    exact payloadFold_set doc _ n inp hmem hname
      (includeInput_of inp n hname hn hs hi hc) hnd
  · intro inp hmem n hname hnbtn hexcl
    exact habsent inp hmem n hname hnbtn
      (includeInput_excluded inp (by tauto))
  · intro inp hmem n hname hcb hch
    have hnbtn : n ≠ buttonName := by
      intro heq
      subst heq
      have hsub := hbtn inp hmem hname
      rw [hsub] at hcb
      exact absurd hcb (by decide)
    exact habsent inp hmem n hname hnbtn
      (includeInput_excluded inp (Or.inr (Or.inr ⟨hcb, hch⟩)))

/-- Witness for C7 on a concrete document: the matched control maps to
the empty string, a text field is copied with its value, a foreign submit
control is dropped, and an unchecked checkbox is dropped. -/
theorem buildFormData_spec_witness :
    buildFormData
        [⟨some "f1", "text", "v1", false⟩,
         ⟨some "cb1", "checkbox", "on", true⟩,
         ⟨some "cb2", "checkbox", "on", false⟩,
         ⟨some "other", "submit", "go", false⟩,
         ⟨some "btn", "submit", "", false⟩]
        "btn" "btn" = some "" ∧
    buildFormData
        [⟨some "f1", "text", "v1", false⟩,
         ⟨some "cb1", "checkbox", "on", true⟩,
         ⟨some "cb2", "checkbox", "on", false⟩,
         ⟨some "other", "submit", "go", false⟩,
         ⟨some "btn", "submit", "", false⟩]
        "btn" "f1" = some "v1" ∧
    buildFormData
        [⟨some "f1", "text", "v1", false⟩,
         ⟨some "cb1", "checkbox", "on", true⟩,
         ⟨some "cb2", "checkbox", "on", false⟩,
         ⟨some "other", "submit", "go", false⟩,
         ⟨some "btn", "submit", "", false⟩]
        "btn" "other" = none ∧
    buildFormData
        [⟨some "f1", "text", "v1", false⟩,
         ⟨some "cb1", "checkbox", "on", true⟩,
         ⟨some "cb2", "checkbox", "on", false⟩,
         ⟨some "other", "submit", "go", false⟩,
         ⟨some "btn", "submit", "", false⟩]
        "btn" "cb2" = none := by
  have h := buildFormData_spec
    [⟨some "f1", "text", "v1", false⟩,
     ⟨some "cb1", "checkbox", "on", true⟩,
     ⟨some "cb2", "checkbox", "on", false⟩,
     ⟨some "other", "submit", "go", false⟩,
     ⟨some "btn", "submit", "", false⟩]
    "btn" (by decide) (by decide)
  exact ⟨h.1,
    h.2.1 ⟨some "f1", "text", "v1", false⟩ (by decide) "f1" rfl (by decide)
      (by decide) (by decide) (by decide) (by decide),
    h.2.2.1 ⟨some "other", "submit", "go", false⟩ (by decide) "other" rfl
      (by decide) (Or.inl rfl),
    h.2.2.2 ⟨some "cb2", "checkbox", "on", false⟩ (by decide) "cb2" rfl
      rfl rfl⟩

end Fischertermine
